import Mathlib

/-!
Verification of the momentum-app quantitative kernel.

This file gives a shallow embedding, over the real numbers, of the
Black-Scholes option kernel (`options_service.py`) and, over the rationals,
of the momentum ranking logic (`momentum_service.py`, `app.py`), and settles
the frozen claims about them.

The standard normal distribution used by the source through
`scipy.stats.norm` is modelled by an explicit density and its integral.
The `OptionsService` attribute `self.risk_free_rate` is only a stored
default; every embedded function takes `r` explicitly, as the methods do.
-/

open MeasureTheory Set

set_option maxHeartbeats 1000000

/-- Density of the standard normal distribution (`scipy.stats.norm.pdf`). -/
noncomputable def stdNormalPDF (x : ℝ) : ℝ :=
  Real.exp (-(x ^ 2) / 2) / Real.sqrt (2 * Real.pi)

/-- Cumulative distribution function of the standard normal distribution
(`scipy.stats.norm.cdf`). -/
noncomputable def stdNormalCDF (x : ℝ) : ℝ :=
  ∫ t in Iic x, stdNormalPDF t

/-- The d1 quantity of Black-Scholes (`OptionsService._d1`). -/
noncomputable def d1 (S K T r sigma : ℝ) : ℝ :=
  if T ≤ 0 ∨ sigma ≤ 0 then 0
  else (Real.log (S / K) + (r + 0.5 * sigma ^ 2) * T) / (sigma * Real.sqrt T)

/-- The d2 quantity of Black-Scholes (`OptionsService._d2`). -/
noncomputable def d2 (S K T r sigma : ℝ) : ℝ :=
  d1 S K T r sigma - sigma * Real.sqrt T

/-- Black-Scholes price of a PUT (`OptionsService.put_price`). -/
noncomputable def put_price (S K T r sigma : ℝ) : ℝ :=
  if T ≤ 0 then max (K - S) 0
  else
    max (K * Real.exp (-r * T) * stdNormalCDF (-(d2 S K T r sigma))
      - S * stdNormalCDF (-(d1 S K T r sigma))) 0

/-- Black-Scholes price of a CALL (`OptionsService.call_price`). -/
noncomputable def call_price (S K T r sigma : ℝ) : ℝ :=
  if T ≤ 0 then max (S - K) 0
  else
    max (S * stdNormalCDF (d1 S K T r sigma)
      - K * Real.exp (-r * T) * stdNormalCDF (d2 S K T r sigma)) 0

/-- Delta of a PUT (`OptionsService.delta_put`). -/
noncomputable def delta_put (S K T r sigma : ℝ) : ℝ :=
  if T ≤ 0 then (if S < K then -1 else 0)
  else stdNormalCDF (d1 S K T r sigma) - 1

/-- Delta of a CALL (`OptionsService.delta_call`). -/
noncomputable def delta_call (S K T r sigma : ℝ) : ℝ :=
  if T ≤ 0 then (if S > K then 1 else 0)
  else stdNormalCDF (d1 S K T r sigma)

/-- Gamma (`OptionsService.gamma`). -/
noncomputable def gamma (S K T r sigma : ℝ) : ℝ :=
  if T ≤ 0 ∨ sigma ≤ 0 then 0
  else stdNormalPDF (d1 S K T r sigma) / (S * sigma * Real.sqrt T)

/-- Theta of a PUT, per calendar day (`OptionsService.theta_put`). -/
noncomputable def theta_put (S K T r sigma : ℝ) : ℝ :=
  if T ≤ 0 then 0
  else
    (-(S * stdNormalPDF (d1 S K T r sigma) * sigma) / (2 * Real.sqrt T)
      + r * K * Real.exp (-r * T) * stdNormalCDF (-(d2 S K T r sigma))) / 365

/-- Vega, per percentage point of volatility (`OptionsService.vega`). -/
noncomputable def vega (S K T r sigma : ℝ) : ℝ :=
  if T ≤ 0 then 0
  else S * Real.sqrt T * stdNormalPDF (d1 S K T r sigma) / 100

/-- Two-decimal rounding at the output boundary, Python `round(x, 2)`.
Python rounds exact half-way values to even while `round` here rounds them
up; every concrete value handled in this development is away from a
half-way point, where the two agree. -/
noncomputable def round2 (x : ℝ) : ℝ := (round (100 * x) : ℤ) / 100

/-- Kind of option, Python string argument `option_type` of value
`'put'` or `'call'`. -/
inductive OptKind where
  | put : OptKind
  | call : OptKind

/-- State of the bisection loop of `find_strike_by_delta`: the running
bracket, the last midpoint computed, and whether the loop has hit its
`break`. -/
structure BisectState where
  low : ℝ
  high : ℝ
  mid : ℝ
  done : Bool

/-- One iteration of the bisection loop in
`OptionsService.find_strike_by_delta`: compute the midpoint and its delta,
move the matching bound, then test the `break` condition. -/
noncomputable def bisectStep (S T r sigma target : ℝ) (kind : OptKind)
    (st : BisectState) : BisectState :=
  if st.done then st
  else
    let mid := (st.low + st.high) / 2
    match kind with
    | OptKind.put =>
      let cur := delta_put S mid T r sigma
      let st1 : BisectState :=
        if cur < target then ⟨st.low, mid, mid, false⟩ else ⟨mid, st.high, mid, false⟩
      if |cur - target| < 0.001 then ⟨st1.low, st1.high, st1.mid, true⟩ else st1
    | OptKind.call =>
      let cur := delta_call S mid T r sigma
      let st1 : BisectState :=
        if cur > target then ⟨st.low, mid, mid, false⟩ else ⟨mid, st.high, mid, false⟩
      if |cur - target| < 0.001 then ⟨st1.low, st1.high, st1.mid, true⟩ else st1

/-- Delta-targeted strike search (`OptionsService.find_strike_by_delta`):
50 bisection iterations over `[0.5*S, 1.5*S]` (the source initializes the
same bracket for both option kinds), result rounded to cents. -/
noncomputable def find_strike_by_delta (S T r sigma target : ℝ) (kind : OptKind) : ℝ :=
  round2 (((bisectStep S T r sigma target kind)^[50]
    ⟨0.5 * S, 1.5 * S, 0, false⟩).mid)

/-- Result dictionary of `OptionsService.calculate_put_spread`. -/
structure PutSpread where
  spot_price : ℝ
  strike_long : ℝ
  strike_short : ℝ
  price_long : ℝ
  price_short : ℝ
  net_debit : ℝ
  max_profit : ℝ
  max_loss : ℝ
  breakeven : ℝ
  risk_reward : ℝ
  delta_long_actual : ℝ
  delta_short_actual : ℝ
  delta_spread : ℝ
  gamma_spread : ℝ
  theta_spread : ℝ
  vega_spread : ℝ
  dte : ℤ
  iv_used : ℝ

/-- Vertical put spread construction (`OptionsService.calculate_put_spread`),
including the ad-hoc strike swap fallback when the solver returns
`strike_long ≤ strike_short`. The dict key `risk_reward_ratio` is the field
`risk_reward` here. -/
noncomputable def calculate_put_spread (S T r sigma delta_long delta_short : ℝ) : PutSpread :=
  let strike_long0 := find_strike_by_delta S T r sigma delta_long OptKind.put
  let strike_short0 := find_strike_by_delta S T r sigma delta_short OptKind.put
  let strike_long :=
    if strike_long0 ≤ strike_short0 then strike_short0 + 1 else strike_long0
  let strike_short :=
    if strike_long0 ≤ strike_short0 then strike_long0 - 1 else strike_short0
  let price_long := put_price S strike_long T r sigma
  let price_short := put_price S strike_short T r sigma
  let net_debit := price_long - price_short
  let max_profit := (strike_long - strike_short) - net_debit
  let max_loss := net_debit
  let breakeven := strike_long - net_debit
  let delta_spread := delta_put S strike_long T r sigma - delta_put S strike_short T r sigma
  let gamma_spread := gamma S strike_long T r sigma - gamma S strike_short T r sigma
  let theta_spread := theta_put S strike_long T r sigma - theta_put S strike_short T r sigma
  let vega_spread := vega S strike_long T r sigma - vega S strike_short T r sigma
  let risk_reward := if max_loss > 0 then max_profit / max_loss else 0
  { spot_price := round2 S
    strike_long := round2 strike_long
    strike_short := round2 strike_short
    price_long := round2 price_long
    price_short := round2 price_short
    net_debit := round2 net_debit
    max_profit := round2 max_profit
    max_loss := round2 max_loss
    breakeven := round2 breakeven
    risk_reward := round2 risk_reward
    delta_long_actual := (round (1000 * delta_put S strike_long T r sigma) : ℤ) / 1000
    delta_short_actual := (round (1000 * delta_put S strike_short T r sigma) : ℤ) / 1000
    delta_spread := (round (1000 * delta_spread) : ℤ) / 1000
    gamma_spread := (round (10000 * gamma_spread) : ℤ) / 10000
    theta_spread := (round (10000 * theta_spread) : ℤ) / 10000
    vega_spread := (round (10000 * vega_spread) : ℤ) / 10000
    dte := round (T * 365)
    iv_used := (round (10 * (sigma * 100)) : ℤ) / 10 }

/-- Result dictionary of `OptionsService.calculate_naked_put`. -/
structure NakedPut where
  spot_price : ℝ
  strike : ℝ
  price : ℝ
  breakeven : ℝ
  max_profit : ℝ
  max_loss : ℝ
  delta : ℝ
  gamma : ℝ
  theta : ℝ
  vega : ℝ
  dte : ℤ
  iv_used : ℝ

/-- Single put construction (`OptionsService.calculate_naked_put`). -/
noncomputable def calculate_naked_put (S T r sigma delta_target : ℝ) : NakedPut :=
  let strike := find_strike_by_delta S T r sigma delta_target OptKind.put
  let price := put_price S strike T r sigma
  let breakeven := strike - price
  { spot_price := round2 S
    strike := round2 strike
    price := round2 price
    breakeven := round2 breakeven
    max_profit := round2 breakeven
    max_loss := round2 price
    delta := (round (1000 * delta_put S strike T r sigma) : ℤ) / 1000
    gamma := (round (10000 * gamma S strike T r sigma) : ℤ) / 10000
    theta := (round (10000 * theta_put S strike T r sigma) : ℤ) / 10000
    vega := (round (10000 * vega S strike T r sigma) : ℤ) / 10000
    dte := round (T * 365)
    iv_used := (round (10 * (sigma * 100)) : ℤ) / 10 }

/-- The `conditions` dictionary built by
`OptionsService.build_option_recommendation`: `iv_rank_ok` is hard-coded
to `True` in the source. -/
structure Conditions where
  perf_63_5_ok : Bool
  perf_5_0_ok : Bool
  iv_rank_ok : Bool

/-- Result dictionary of `OptionsService.build_option_recommendation`
(the static `entry_rules` / `exit_rules` sub-dictionaries carry no claim
content and are omitted). -/
structure Recommendation where
  ticker : String
  signal : String
  momentum_score : ℝ
  perf_63_5 : ℝ
  perf_5_0 : ℝ
  spot_price : ℝ
  iv_pct : ℝ
  conditions : Conditions
  all_conditions_met : Bool
  recommended_strategy : String
  put : NakedPut
  put_spread : PutSpread

/-- Strategy engine (`OptionsService.build_option_recommendation`); the
parameter `risk_free_rate` is the instance attribute read through
`self.risk_free_rate` (constructor default `0.05`). -/
noncomputable def build_option_recommendation (risk_free_rate : ℝ) (ticker : String)
    (spot_price iv momentum_score perf_63_5 perf_5_0 : ℝ) (dte_target : ℝ) :
    Recommendation :=
  let T := dte_target / 365
  let r := risk_free_rate
  let conditions : Conditions :=
    ⟨decide (perf_63_5 ≤ -15), decide (perf_5_0 ≤ 5), true⟩
  let all_conditions_met :=
    conditions.perf_63_5_ok && conditions.perf_5_0_ok && conditions.iv_rank_ok
  let put_data := calculate_naked_put spot_price T r iv (-0.30)
  let spread_data := calculate_put_spread spot_price T r iv (-0.30) (-0.10)
  let spread_width := spread_data.strike_long - spread_data.strike_short
  let recommend_spread := decide (spread_width ≥ spot_price * 0.05)
  { ticker := ticker
    signal := if all_conditions_met then "SHORT_MOMENTUM_OPTION" else "WATCH"
    momentum_score := round2 momentum_score
    perf_63_5 := round2 perf_63_5
    perf_5_0 := round2 perf_5_0
    spot_price := round2 spot_price
    iv_pct := (round (10 * (iv * 100)) : ℤ) / 10
    conditions := conditions
    all_conditions_met := all_conditions_met
    recommended_strategy := if recommend_spread then "PUT_SPREAD" else "PUT"
    put := put_data
    put_spread := spread_data }

/-- State of the Newton-Raphson loop of `estimate_iv_from_price`. -/
structure IVState where
  sigma : ℝ
  done : Bool

/-- One iteration of the Newton-Raphson loop in
`OptionsService.estimate_iv_from_price`. Note the source order: the update
`sigma += diff / vega` happens before the `abs(diff) < 0.0001` break test,
and the clamp to `[0.01, 5.0]` only runs when that break is not taken. -/
noncomputable def ivStep (S K T r market_price : ℝ) (kind : OptKind)
    (st : IVState) : IVState :=
  if st.done then st
  else
    let price := match kind with
      | OptKind.put => put_price S K T r st.sigma
      | OptKind.call => call_price S K T r st.sigma
    let vega1 := vega S K T r st.sigma * 100
    if vega1 < 0.0001 then ⟨st.sigma, true⟩
    else
      let diff := market_price - price
      let sigma1 := st.sigma + diff / vega1
      if |diff| < 0.0001 then ⟨sigma1, true⟩
      else ⟨max 0.01 (min sigma1 5.0), false⟩

/-- Implied-volatility solver (`OptionsService.estimate_iv_from_price`):
Newton-Raphson from `sigma = 0.30`, at most 100 iterations. -/
noncomputable def estimate_iv_from_price (S K T r market_price : ℝ) (kind : OptKind) : ℝ :=
  (((ivStep S K T r market_price kind)^[100]) ⟨0.30, false⟩).sigma

/-- Log-returns accumulator of `estimate_historical_volatility`: walks
consecutive price pairs, appending `log(p / prev)` when `prev > 0`.
Returns `none` exactly where Python `math.log` would raise its domain
error, namely when `prev > 0` but `p / prev ≤ 0`. -/
noncomputable def logReturnsAux : ℝ → List ℝ → Option (List ℝ)
  | _, [] => some []
  | prev, p :: rest =>
    if prev > 0 then
      if p / prev > 0 then
        (logReturnsAux p rest).map (fun l => Real.log (p / prev) :: l)
      else none
    else logReturnsAux p rest

/-- Historical-volatility estimator (module-level
`estimate_historical_volatility`). `none` marks the paths where the Python
code would raise (log domain error, division by zero); the `window = 0`
slice quirk of Python (`returns[-0:]` is the whole list) is modelled
explicitly. -/
noncomputable def estimate_historical_volatility (prices : List ℝ) (window : ℕ) :
    Option ℝ :=
  if prices.length < window + 1 then some 0.30
  else
    match prices with
    | [] => some 0.30
    | p :: rest =>
      (logReturnsAux p rest).bind fun returns =>
        if returns.length < window then some 0.30
        else
          let recent := if window = 0 then returns
            else returns.drop (returns.length - window)
          if recent.length = 0 then none
          else
            let mean : ℝ := recent.sum / (recent.length : ℝ)
            let variance : ℝ :=
              (recent.map (fun x => (x - mean) ^ 2)).sum / (recent.length : ℝ)
            some (Real.sqrt variance * Real.sqrt 252)

/-- Two-decimal rounding over `ℚ`, Python `round(x, 2)` (same half-way
caveat as `round2`). -/
def round2q (x : ℚ) : ℚ := (round (100 * x) : ℤ) / 100

/-- The 12-1 momentum (`MomentumService.calculer_momentum_12_1`). The
source sorts the monthly frame by date before indexing; the argument here
is that already date-sorted adjusted-close series, oldest first, so
`iloc[-13]` and `iloc[-2]` are the positions used below. -/
def calculer_momentum_12_1 (prix : List ℚ) : Option ℚ :=
  if prix.length < 13 then none
  else
    let prix_debut := prix.getD (prix.length - 13) 0
    let prix_fin := prix.getD (prix.length - 2) 0
    if 0 < prix_debut then some ((prix_fin - prix_debut) / prix_debut * 100)
    else none

/-- One row of `analyser_panel`'s `resultats` list. -/
structure ResultatMomentum where
  ticker : String
  momentum : ℚ
  rank : ℕ

/-- The dictionary produced by `MomentumService.analyser_panel` that
`generer_recommandations` consumes. -/
structure AnalyseResultat where
  success : Bool
  date_calcul : String
  resultats : List ResultatMomentum
  erreurs : List String

/-- One row of the long recommendation list. -/
structure Recommandation where
  ticker : String
  momentum : ℚ
  signal : String
  allocation : ℚ
  rank : ℕ

/-- Result dictionary of `MomentumService.generer_recommandations`. -/
structure RecommandationsLong where
  date_calcul : String
  nb_top : ℕ
  recommandations : List Recommandation
  total_investir : ℕ
  erreurs : List String

/-- Long-strategy signal generation
(`MomentumService.generer_recommandations`). -/
def generer_recommandations (resultats_analyse : AnalyseResultat) (nb_top : ℕ) :
    RecommandationsLong :=
  if resultats_analyse.success = false then
    { date_calcul := resultats_analyse.date_calcul
      nb_top := nb_top
      recommandations := []
      total_investir := 0
      erreurs := resultats_analyse.erreurs }
  else
    let resultats := resultats_analyse.resultats
    let nb_actions := resultats.length
    let nb_selection := min nb_top nb_actions
    let allocation_par_action : ℚ :=
      if 0 < nb_selection then round2q (100 / (nb_selection : ℚ)) else 0
    let recommandations := resultats.enum.map fun p =>
      if p.1 < nb_selection then
        { ticker := p.2.ticker
          momentum := round2q p.2.momentum
          signal := "Investir"
          allocation := allocation_par_action
          rank := p.2.rank : Recommandation }
      else
        { ticker := p.2.ticker
          momentum := round2q p.2.momentum
          signal := "Sortir"
          allocation := 0
          rank := p.2.rank : Recommandation }
    { date_calcul := resultats_analyse.date_calcul
      nb_top := nb_top
      recommandations := recommandations
      total_investir := nb_selection
      erreurs := resultats_analyse.erreurs }

/-- One row of `analyser_panel_short`'s `resultats` list. The optional
dictionary entries read through `r.get(k, 0)` appear as plain fields. -/
structure ResultatShort where
  ticker : String
  momentum : ℚ
  perf_lookback : ℚ
  perf_recent : ℚ
  prix_actuel : ℚ
  rank : ℕ

/-- The dictionary produced by `analyser_panel_short` that
`generer_recommandations_short` consumes. -/
structure AnalyseResultatShort where
  success : Bool
  date_calcul : String
  resultats : List ResultatShort
  erreurs : List String

/-- One row of the short recommendation list. -/
structure RecommandationShort where
  ticker : String
  momentum : ℚ
  perf_lookback : ℚ
  perf_recent : ℚ
  prix_actuel : ℚ
  signal : String
  allocation : ℚ
  rank : ℕ

/-- Result dictionary of `generer_recommandations_short` in `app.py`. -/
structure RecommandationsShort where
  date_calcul : String
  nb_top : ℕ
  recommandations : List RecommandationShort
  total_shorter : ℕ
  erreurs : List String

/-- Short-strategy signal generation (`generer_recommandations_short`,
`app.py`). -/
def generer_recommandations_short (resultats_analyse : AnalyseResultatShort)
    (nb_top : ℕ) : RecommandationsShort :=
  if resultats_analyse.success = false then
    { date_calcul := resultats_analyse.date_calcul
      nb_top := nb_top
      recommandations := []
      total_shorter := 0
      erreurs := resultats_analyse.erreurs }
  else
    let resultats := resultats_analyse.resultats
    let nb_actions := resultats.length
    let nb_selection := min nb_top nb_actions
    let allocation_par_action : ℚ :=
      if 0 < nb_selection then round2q (100 / (nb_selection : ℚ)) else 0
    let recommandations := resultats.enum.map fun p =>
      if p.1 < nb_selection then
        { ticker := p.2.ticker
          momentum := round2q p.2.momentum
          perf_lookback := p.2.perf_lookback
          perf_recent := p.2.perf_recent
          prix_actuel := p.2.prix_actuel
          signal := "Shorter"
          allocation := allocation_par_action
          rank := p.2.rank : RecommandationShort }
      else
        { ticker := p.2.ticker
          momentum := round2q p.2.momentum
          perf_lookback := p.2.perf_lookback
          perf_recent := p.2.perf_recent
          prix_actuel := p.2.prix_actuel
          signal := "Couvrir"
          allocation := 0
          rank := p.2.rank : RecommandationShort }
    { date_calcul := resultats_analyse.date_calcul
      nb_top := nb_top
      recommandations := recommandations
      total_shorter := nb_selection
      erreurs := resultats_analyse.erreurs }

/-- Sum of the allocations of a long recommendation batch. -/
def totalAllocation (recs : List Recommandation) : ℚ :=
  (recs.map (fun rec => rec.allocation)).sum

/-- Sum of the allocations of a short recommendation batch. -/
def totalAllocationShort (recs : List RecommandationShort) : ℚ :=
  (recs.map (fun rec => rec.allocation)).sum

/-- A concrete successful three-record ranked batch. -/
def batch3 : AnalyseResultat :=
  { success := true
    date_calcul := "2024-01-31"
    resultats := [⟨"AAA", 30, 1⟩, ⟨"BBB", 20, 2⟩, ⟨"CCC", 10, 3⟩]
    erreurs := [] }

/-- A concrete successful six-record ranked batch. -/
def batch6 : AnalyseResultat :=
  { success := true
    date_calcul := "2024-01-31"
    resultats := [⟨"AAA", 60, 1⟩, ⟨"BBB", 50, 2⟩, ⟨"CCC", 40, 3⟩,
      ⟨"DDD", 30, 4⟩, ⟨"EEE", 20, 5⟩, ⟨"FFF", 10, 6⟩]
    erreurs := [] }

/-- A concrete successful two-record long batch. -/
def batchW : AnalyseResultat :=
  { success := true
    date_calcul := "2024-01-31"
    resultats := [⟨"AAA", 30, 1⟩, ⟨"BBB", 20, 2⟩]
    erreurs := [] }

/-- A concrete successful two-record short batch. -/
def batchWS : AnalyseResultatShort :=
  { success := true
    date_calcul := "2024-01-31"
    resultats := [⟨"XXX", -30, -25, 2, 50, 1⟩, ⟨"YYY", -20, -18, 1, 40, 2⟩]
    erreurs := [] }

/-- The spec scenario: 13 monthly prices, price 12 months ago 100, price
one month ago 120. -/
def scenario13 : List ℚ := [100, 1, 2, 3, 4, 5, 6, 7, 8, 9, 10, 120, 99]

/-- Bracket-and-midpoint invariant of the bisection loop: all components
stay inside the initial search interval `[0.5*S, 1.5*S]`. -/
def bisectInv (S : ℝ) (st : BisectState) : Prop :=
  0.5 * S ≤ st.low ∧ st.low ≤ st.high ∧ st.high ≤ 1.5 * S
    ∧ 0.5 * S ≤ st.mid ∧ st.mid ≤ 1.5 * S

/-- Invariant of the Newton-Raphson loop: while running, the estimate is
inside the clamp interval; once it breaks, it is inside the clamp interval
widened by strictly less than one on each side. -/
def ivInv (st : IVState) : Prop :=
  (st.done = false → 0.01 ≤ st.sigma ∧ st.sigma ≤ 5)
  ∧ (st.done = true → -0.99 < st.sigma ∧ st.sigma < 6)

/-!
Lemmas and claim theorems.
-/

theorem sqrt_two_pi_pos : 0 < Real.sqrt (2 * Real.pi) :=
  Real.sqrt_pos.mpr (by positivity)

theorem stdNormalPDF_pos (x : ℝ) : 0 < stdNormalPDF x :=
  div_pos (Real.exp_pos _) sqrt_two_pi_pos

theorem stdNormalPDF_nonneg (x : ℝ) : 0 ≤ stdNormalPDF x :=
  (stdNormalPDF_pos x).le

theorem stdNormalPDF_eq (x : ℝ) :
    stdNormalPDF x = Real.exp (-(2⁻¹ : ℝ) * x ^ 2) * (Real.sqrt (2 * Real.pi))⁻¹ := by
  rw [stdNormalPDF, div_eq_mul_inv]
  congr 2
  ring

theorem integrable_stdNormalPDF : Integrable stdNormalPDF := by
  have h : Integrable (fun x : ℝ => Real.exp (-(2⁻¹ : ℝ) * x ^ 2)) :=
    integrable_exp_neg_mul_sq (by norm_num)
  have h2 := h.mul_const (Real.sqrt (2 * Real.pi))⁻¹
  refine h2.congr ?_
  filter_upwards with x
  rw [stdNormalPDF_eq]

theorem integral_stdNormalPDF : ∫ x, stdNormalPDF x = 1 := by
  have h : (fun x : ℝ => stdNormalPDF x)
      = fun x : ℝ => Real.exp (-(2⁻¹ : ℝ) * x ^ 2) * (Real.sqrt (2 * Real.pi))⁻¹ := by
    funext x; exact stdNormalPDF_eq x
  rw [h, integral_mul_right, integral_gaussian]
  have hpi : Real.pi / (2⁻¹ : ℝ) = 2 * Real.pi := by ring
  rw [hpi, mul_inv_cancel₀ (ne_of_gt sqrt_two_pi_pos)]

theorem stdNormalCDF_nonneg (x : ℝ) : 0 ≤ stdNormalCDF x :=
  setIntegral_nonneg measurableSet_Iic fun t _ => stdNormalPDF_nonneg t

theorem stdNormalCDF_le_one (x : ℝ) : stdNormalCDF x ≤ 1 := by
  rw [← integral_stdNormalPDF]
  exact setIntegral_le_integral integrable_stdNormalPDF
    (Filter.Eventually.of_forall stdNormalPDF_nonneg)

theorem stdNormalCDF_mono {x y : ℝ} (hxy : x ≤ y) : stdNormalCDF x ≤ stdNormalCDF y := by
  refine setIntegral_mono_set integrable_stdNormalPDF.integrableOn
    (Filter.Eventually.of_forall stdNormalPDF_nonneg) ?_
  exact HasSubset.Subset.eventuallyLE (Iic_subset_Iic.mpr hxy)

theorem stdNormalCDF_add_neg (x : ℝ) : stdNormalCDF x + stdNormalCDF (-x) = 1 := by
  have heven : ∀ t : ℝ, stdNormalPDF (-t) = stdNormalPDF t := by
    intro t; simp [stdNormalPDF]
  have hrefl : stdNormalCDF x = ∫ t in Ioi (-x), stdNormalPDF t := by
    rw [stdNormalCDF]
    have := integral_comp_neg_Iic x stdNormalPDF
    rw [← this]
    refine setIntegral_congr_fun measurableSet_Iic fun t _ => ?_
    rw [heven]
  rw [hrefl, stdNormalCDF, add_comm, ← integral_stdNormalPDF]
  rw [← setIntegral_union (Iic_disjoint_Ioi le_rfl) measurableSet_Ioi
    integrable_stdNormalPDF.integrableOn integrable_stdNormalPDF.integrableOn]
  rw [Iic_union_Ioi, Measure.restrict_univ]

theorem stdNormalCDF_zero : stdNormalCDF 0 = 1 / 2 := by
  have h := stdNormalCDF_add_neg 0
  rw [neg_zero] at h
  linarith

theorem stdNormalCDF_ge_half {x : ℝ} (hx : 0 ≤ x) : 1 / 2 ≤ stdNormalCDF x := by
  rw [← stdNormalCDF_zero]
  exact stdNormalCDF_mono hx

theorem stdNormalPDF_le (x : ℝ) : stdNormalPDF x ≤ 1 / Real.sqrt (2 * Real.pi) := by
  unfold stdNormalPDF
  rw [div_le_div_iff_of_pos_right sqrt_two_pi_pos]
  rw [Real.exp_le_one_iff]
  nlinarith [sq_nonneg x]

theorem stdNormalPDF_sub (u a : ℝ) :
    stdNormalPDF (u - a) = stdNormalPDF u * Real.exp (u * a - a ^ 2 / 2) := by
  unfold stdNormalPDF
  rw [div_mul_eq_mul_div, ← Real.exp_add]
  have h : -(u - a) ^ 2 / 2 = -u ^ 2 / 2 + (u * a - a ^ 2 / 2) := by ring
  rw [h]

theorem stdNormalCDF_shift_aux (x a : ℝ) :
    stdNormalCDF (x - a) = ∫ u in Iic x, stdNormalPDF (u - a) := by
  have hg : stdNormalCDF (x - a) = ∫ u, Set.indicator (Iic (x - a)) stdNormalPDF u := by
    rw [stdNormalCDF, integral_indicator measurableSet_Iic]
  rw [hg, ← integral_sub_right_eq_self (fun u => Set.indicator (Iic (x - a)) stdNormalPDF u) a]
  rw [← integral_indicator measurableSet_Iic]
  congr 1
  funext u
  by_cases h : u ≤ x
  · rw [Set.indicator_of_mem (by simpa using sub_le_sub_right h a),
      Set.indicator_of_mem (by simpa using h)]
  · rw [Set.indicator_of_not_mem (by simpa [sub_le_sub_iff_right] using h),
      Set.indicator_of_not_mem (by simpa using h)]

theorem integrable_stdNormalPDF_shift (a : ℝ) :
    Integrable (fun u : ℝ => stdNormalPDF (u - a)) :=
  integrable_stdNormalPDF.comp_sub_right a

/-- Core Gaussian inequality behind nonnegativity of the Black-Scholes
prices: shifting the CDF argument down by `a ≥ 0` and multiplying by
`exp (-(x*a) + a^2/2)` can only decrease the value. -/
theorem stdNormalCDF_shift_le (x a : ℝ) (ha : 0 ≤ a) :
    Real.exp (-(x * a) + a ^ 2 / 2) * stdNormalCDF (x - a) ≤ stdNormalCDF x := by
  rw [stdNormalCDF_shift_aux x a, ← integral_mul_left]
  rw [stdNormalCDF]
  refine setIntegral_mono_on ?_ integrable_stdNormalPDF.integrableOn measurableSet_Iic ?_
  · exact ((integrable_stdNormalPDF_shift a).const_mul _).integrableOn
  · intro u hu
    rw [stdNormalPDF_sub, ← mul_assoc, mul_comm (Real.exp _) (stdNormalPDF u), mul_assoc,
      ← Real.exp_add]
    have harg : -(x * a) + a ^ 2 / 2 + (u * a - a ^ 2 / 2) = (u - x) * a := by ring
    rw [harg]
    have hle : (u - x) * a ≤ 0 :=
      mul_nonpos_iff.mpr (Or.inr ⟨by simpa using sub_nonpos.mpr (mem_Iic.mp hu), ha⟩)
    calc stdNormalPDF u * Real.exp ((u - x) * a)
        ≤ stdNormalPDF u * 1 := by
          exact mul_le_mul_of_nonneg_left (Real.exp_le_one_iff.mpr hle) (stdNormalPDF_nonneg u)
      _ = stdNormalPDF u := mul_one _

/-- Companion inequality: shifting the CDF argument up by `a ≥ 0` and
multiplying by `exp (y*a + a^2/2)` can only increase the value. -/
theorem stdNormalCDF_le_shift (y a : ℝ) (ha : 0 ≤ a) :
    stdNormalCDF y ≤ Real.exp (y * a + a ^ 2 / 2) * stdNormalCDF (y + a) := by
  have h := stdNormalCDF_shift_le (y + a) a ha
  rw [add_sub_cancel_right] at h
  have hpos : (0 : ℝ) < Real.exp (-((y + a) * a) + a ^ 2 / 2) := Real.exp_pos _
  have h2 := mul_le_mul_of_nonneg_left h (le_of_lt (Real.exp_pos (y * a + a ^ 2 / 2)))
  rw [← mul_assoc, ← Real.exp_add] at h2
  have harg : y * a + a ^ 2 / 2 + (-((y + a) * a) + a ^ 2 / 2) = 0 := by ring
  rw [harg, Real.exp_zero, one_mul] at h2
  exact h2

theorem d2_eq (S K T r sigma : ℝ) (hT : 0 < T) (hs : 0 < sigma) :
    d2 S K T r sigma * (sigma * Real.sqrt T) + (sigma * Real.sqrt T) ^ 2 / 2
      = Real.log (S / K) + r * T := by
  have hsq : Real.sqrt T ^ 2 = T := Real.sq_sqrt hT.le
  have hne : sigma * Real.sqrt T ≠ 0 := by
    have := Real.sqrt_pos.mpr hT
    positivity
  rw [d2, d1, if_neg (by push_neg; exact ⟨hT, hs⟩)]
  field_simp
  nlinarith [hsq]

/-- The lognormal change-of-numeraire identity
`K * exp (-r*T) * exp (d2*a + a^2/2) = S` with `a = sigma * sqrt T`. -/
theorem bs_key_identity (S K T r sigma : ℝ) (hS : 0 < S) (hK : 0 < K)
    (hT : 0 < T) (hs : 0 < sigma) :
    K * Real.exp (-r * T)
      * Real.exp (d2 S K T r sigma * (sigma * Real.sqrt T)
        + (sigma * Real.sqrt T) ^ 2 / 2) = S := by
  rw [d2_eq S K T r sigma hT hs, Real.exp_add, Real.exp_log (by positivity)]
  have hKne : K ≠ 0 := ne_of_gt hK
  have hmul : Real.exp (-r * T) * Real.exp (r * T) = 1 := by
    rw [← Real.exp_add]
    simp
  calc K * Real.exp (-r * T) * (S / K * Real.exp (r * T))
      = S / K * K * (Real.exp (-r * T) * Real.exp (r * T)) := by ring
    _ = S / K * K := by rw [hmul, mul_one]
    _ = S := div_mul_cancel₀ S hKne

theorem put_raw_nonneg (S K T r sigma : ℝ) (hS : 0 < S) (hK : 0 < K)
    (hT : 0 < T) (hs : 0 < sigma) :
    0 ≤ K * Real.exp (-r * T) * stdNormalCDF (-(d2 S K T r sigma))
      - S * stdNormalCDF (-(d1 S K T r sigma)) := by
  set a : ℝ := sigma * Real.sqrt T with ha_def
  have ha : 0 ≤ a := by
    have := Real.sqrt_nonneg T
    positivity
  have hd1 : d1 S K T r sigma = d2 S K T r sigma + a := by
    rw [d2]; ring
  have hkey := bs_key_identity S K T r sigma hS hK hT hs
  have hshift := stdNormalCDF_shift_le (-(d2 S K T r sigma)) a ha
  -- rewrite  -(d2) - a = -(d1)
  have harg : -(d2 S K T r sigma) - a = -(d1 S K T r sigma) := by rw [hd1]; ring
  rw [harg] at hshift
  have hexp : -(-(d2 S K T r sigma) * a) + a ^ 2 / 2
      = d2 S K T r sigma * a + a ^ 2 / 2 := by ring
  rw [hexp] at hshift
  have hfac : (0 : ℝ) < K * Real.exp (-r * T) := by positivity
  have h2 := mul_le_mul_of_nonneg_left hshift hfac.le
  calc (0 : ℝ)
      ≤ K * Real.exp (-r * T) * stdNormalCDF (-(d2 S K T r sigma))
        - K * Real.exp (-r * T)
          * (Real.exp (d2 S K T r sigma * a + a ^ 2 / 2)
            * stdNormalCDF (-(d1 S K T r sigma))) := by linarith [h2]
    _ = K * Real.exp (-r * T) * stdNormalCDF (-(d2 S K T r sigma))
        - S * stdNormalCDF (-(d1 S K T r sigma)) := by
          rw [← mul_assoc, hkey]

theorem call_raw_nonneg (S K T r sigma : ℝ) (hS : 0 < S) (hK : 0 < K)
    (hT : 0 < T) (hs : 0 < sigma) :
    0 ≤ S * stdNormalCDF (d1 S K T r sigma)
      - K * Real.exp (-r * T) * stdNormalCDF (d2 S K T r sigma) := by
  set a : ℝ := sigma * Real.sqrt T with ha_def
  have ha : 0 ≤ a := by
    have := Real.sqrt_nonneg T
    positivity
  have hd1 : d1 S K T r sigma = d2 S K T r sigma + a := by
    rw [d2]; ring
  have hkey := bs_key_identity S K T r sigma hS hK hT hs
  have hshift := stdNormalCDF_le_shift (d2 S K T r sigma) a ha
  rw [← hd1] at hshift
  have hfac : (0 : ℝ) < K * Real.exp (-r * T) := by positivity
  have h2 := mul_le_mul_of_nonneg_left hshift hfac.le
  calc (0 : ℝ)
      ≤ K * Real.exp (-r * T)
          * (Real.exp (d2 S K T r sigma * a + a ^ 2 / 2)
            * stdNormalCDF (d1 S K T r sigma))
        - K * Real.exp (-r * T) * stdNormalCDF (d2 S K T r sigma) := by linarith [h2]
    _ = S * stdNormalCDF (d1 S K T r sigma)
        - K * Real.exp (-r * T) * stdNormalCDF (d2 S K T r sigma) := by
          rw [← mul_assoc, hkey]

theorem put_call_parity_exact (S K T r sigma : ℝ) (hS : 0 < S) (hK : 0 < K)
    (hT : 0 < T) (hs : 0 < sigma) :
    call_price S K T r sigma - put_price S K T r sigma
      = S - K * Real.exp (-r * T) := by
  rw [call_price, put_price, if_neg (not_le.mpr hT), if_neg (not_le.mpr hT)]
  rw [max_eq_left (call_raw_nonneg S K T r sigma hS hK hT hs),
    max_eq_left (put_raw_nonneg S K T r sigma hS hK hT hs)]
  have h1 := stdNormalCDF_add_neg (d1 S K T r sigma)
  have h2 := stdNormalCDF_add_neg (d2 S K T r sigma)
  linear_combination S * h1 - K * Real.exp (-r * T) * h2

/-- C1: for `S, K, T > 0`, any `r`, and `sigma > 0`, put-call parity
`call_price - put_price = S - K * exp (-r*T)` holds within tolerance
`1e-2` (in fact exactly: under these preconditions the `max(., 0)` floors
of both prices never bind). -/
theorem C1_put_call_parity (S K T r sigma : ℝ) (hS : 0 < S) (hK : 0 < K)
    (hT : 0 < T) (hs : 0 < sigma) :
    |call_price S K T r sigma - put_price S K T r sigma
      - (S - K * Real.exp (-r * T))| ≤ 0.01 := by
  rw [put_call_parity_exact S K T r sigma hS hK hT hs, sub_self, abs_zero]
  norm_num

theorem C1_put_call_parity_witness :
    |call_price 100 95 1 (1/20) (3/10) - put_price 100 95 1 (1/20) (3/10)
      - (100 - 95 * Real.exp (-(1/20) * 1))| ≤ 0.01 :=
  C1_put_call_parity 100 95 1 (1/20) (3/10) (by norm_num) (by norm_num)
    (by norm_num) (by norm_num)

theorem delta_put_range (S K T r sigma : ℝ) :
    -1 ≤ delta_put S K T r sigma ∧ delta_put S K T r sigma ≤ 0 := by
  rw [delta_put]
  split_ifs with h h2
  · exact ⟨le_refl _, by norm_num⟩
  · exact ⟨by norm_num, le_refl _⟩
  · exact ⟨by linarith [stdNormalCDF_nonneg (d1 S K T r sigma)],
      by linarith [stdNormalCDF_le_one (d1 S K T r sigma)]⟩

theorem delta_call_range (S K T r sigma : ℝ) :
    0 ≤ delta_call S K T r sigma ∧ delta_call S K T r sigma ≤ 1 := by
  rw [delta_call]
  split_ifs with h h2
  · exact ⟨by norm_num, le_refl _⟩
  · exact ⟨le_refl _, by norm_num⟩
  · exact ⟨stdNormalCDF_nonneg _, stdNormalCDF_le_one _⟩

theorem gamma_nonneg (S K T r sigma : ℝ) (hS : 0 < S) :
    0 ≤ gamma S K T r sigma := by
  rw [gamma]
  split_ifs with h
  · exact le_refl _
  · push_neg at h
    have hT : 0 < T := h.1
    have hsig : 0 < sigma := h.2
    have hsq : 0 < Real.sqrt T := Real.sqrt_pos.mpr hT
    exact div_nonneg (stdNormalPDF_nonneg _) (by positivity)

theorem vega_nonneg (S K T r sigma : ℝ) (hS : 0 ≤ S) :
    0 ≤ vega S K T r sigma := by
  rw [vega]
  split_ifs with h
  · exact le_refl _
  · have hsq : 0 ≤ Real.sqrt T := Real.sqrt_nonneg T
    exact div_nonneg (mul_nonneg (mul_nonneg hS hsq) (stdNormalPDF_nonneg _)) (by norm_num)

/-- C5, amended: over the claimed input domain `S, K > 0`, `T ≥ 0`,
`sigma ≥ 0`, the delta bounds, `gamma ≥ 0` and `vega ≥ 0` hold, while
`theta_put ≤ 0` holds under the additional hypothesis `r ≤ 0` (it fails
for deep in-the-money puts when `r > 0`, see the counterexample). -/
theorem C5_greek_ranges (S K T r sigma : ℝ) (hS : 0 < S) (hK : 0 < K)
    (hT : 0 ≤ T) (hs : 0 ≤ sigma) :
    (-1 ≤ delta_put S K T r sigma ∧ delta_put S K T r sigma ≤ 0)
    ∧ (0 ≤ delta_call S K T r sigma ∧ delta_call S K T r sigma ≤ 1)
    ∧ 0 ≤ gamma S K T r sigma
    ∧ 0 ≤ vega S K T r sigma
    ∧ (r ≤ 0 → theta_put S K T r sigma ≤ 0) := by
  refine ⟨delta_put_range S K T r sigma, delta_call_range S K T r sigma,
    gamma_nonneg S K T r sigma hS, vega_nonneg S K T r sigma hS.le, ?_⟩
  intro hr
  rw [theta_put]
  split_ifs with h
  · exact le_refl _
  · push_neg at h
    have hsq : 0 < Real.sqrt T := Real.sqrt_pos.mpr h
    have h1 : -(S * stdNormalPDF (d1 S K T r sigma) * sigma) / (2 * Real.sqrt T) ≤ 0 := by
      apply div_nonpos_of_nonpos_of_nonneg
      · simp only [neg_nonpos]
        exact mul_nonneg (mul_nonneg hS.le (stdNormalPDF_nonneg _)) hs
      · positivity
    have h2 : r * K * Real.exp (-r * T) * stdNormalCDF (-(d2 S K T r sigma)) ≤ 0 := by
      apply mul_nonpos_of_nonpos_of_nonneg
      · have : 0 < K * Real.exp (-r * T) := by positivity
        nlinarith
      · exact stdNormalCDF_nonneg _
    have := stdNormalPDF_nonneg (d1 S K T r sigma)
    apply div_nonpos_of_nonpos_of_nonneg _ (by norm_num)
    linarith

theorem C5_greek_ranges_witness :
    (-1 ≤ delta_put 100 95 1 (1/20) (3/10) ∧ delta_put 100 95 1 (1/20) (3/10) ≤ 0)
    ∧ (0 ≤ delta_call 100 95 1 (1/20) (3/10) ∧ delta_call 100 95 1 (1/20) (3/10) ≤ 1)
    ∧ 0 ≤ gamma 100 95 1 (1/20) (3/10)
    ∧ 0 ≤ vega 100 95 1 (1/20) (3/10)
    ∧ ((1/20 : ℝ) ≤ 0 → theta_put 100 95 1 (1/20) (3/10) ≤ 0) :=
  C5_greek_ranges 100 95 1 (1/20) (3/10) (by norm_num) (by norm_num)
    (by norm_num) (by norm_num)

/-- C5, counterexample: the claim asserts `theta_put ≤ 0` for every valid
input, but for the deep in-the-money put `S = 1`, `K = 100`, `T = 1`,
`r = 1`, `sigma = 1` the interest-on-strike term dominates and
`theta_put > 0`. -/
theorem C5_theta_counterexample : 0 < theta_put 1 100 1 1 1 := by
  rw [theta_put, if_neg (by norm_num : ¬ (1:ℝ) ≤ 0)]
  have hsq1 : Real.sqrt (1:ℝ) = 1 := Real.sqrt_one
  have hexp3 : Real.exp 1 ≤ 3 := by
    have := Real.exp_one_lt_d9
    linarith
  have hloglb : (1:ℝ) ≤ Real.log 100 := by
    rw [Real.le_log_iff_exp_le (by norm_num : (0:ℝ) < 100)]
    linarith [Real.exp_one_lt_d9]
  have hd1v : d1 1 100 1 1 1 = -Real.log 100 + 1.5 := by
    rw [d1, if_neg (by norm_num)]
    rw [hsq1]
    rw [show ((1:ℝ)/100) = ((100:ℝ))⁻¹ by norm_num] at *
    rw [show Real.log ((100:ℝ)⁻¹) = -Real.log 100 from Real.log_inv 100]
    norm_num
  have hd2v : -(d2 1 100 1 1 1) = Real.log 100 - 0.5 := by
    rw [d2, hd1v, hsq1]
    ring
  have hcdf : 1/2 ≤ stdNormalCDF (-(d2 1 100 1 1 1)) := by
    rw [hd2v]
    exact stdNormalCDF_ge_half (by linarith)
  have hcdf1 : stdNormalCDF (-(d2 1 100 1 1 1)) ≤ 1 := stdNormalCDF_le_one _
  have hsqrt2pi : (2:ℝ) ≤ Real.sqrt (2 * Real.pi) := by
    have h4 : (4:ℝ) ≤ 2 * Real.pi := by nlinarith [Real.pi_gt_three]
    nlinarith [Real.sq_sqrt (by positivity : (0:ℝ) ≤ 2 * Real.pi),
      Real.sqrt_nonneg (2 * Real.pi), h4]
  have hpdf : stdNormalPDF (d1 1 100 1 1 1) ≤ 1/2 := by
    calc stdNormalPDF (d1 1 100 1 1 1)
        ≤ 1 / Real.sqrt (2 * Real.pi) := stdNormalPDF_le _
      _ ≤ 1/2 := by
          apply div_le_div_of_nonneg_left (by norm_num) (by norm_num) hsqrt2pi
  have hexpneg : (1:ℝ)/3 ≤ Real.exp (-1 * 1) := by
    rw [show (-1 : ℝ) * 1 = -1 by ring, Real.exp_neg, inv_eq_one_div]
    exact one_div_le_one_div_of_le (Real.exp_pos 1) hexp3
  have hpdf0 : 0 ≤ stdNormalPDF (d1 1 100 1 1 1) := stdNormalPDF_nonneg _
  rw [hsq1]
  have hprod : (1:ℝ)/3 * (1/2) ≤ Real.exp (-1 * 1) * stdNormalCDF (-(d2 1 100 1 1 1)) := by
    apply mul_le_mul hexpneg hcdf (by norm_num) (Real.exp_pos _).le
  nlinarith [hprod, hpdf]

/-- C3, code evaluation at the failing input: with `perf_63_5 = -20` the
hard condition `perf_63_5 ≤ -15` holds, yet the code returns `WATCH`
because it also gates the signal on `perf_5_0 ≤ 5` (here `perf_5_0 = 10`),
contradicting the spec and the test suite, for which `perf_recent` is a
soft condition only. -/
theorem C3_code_eval :
    (build_option_recommendation 0.05 "TST" 100 (3/10) (-30) (-20) 10 45).signal
      = "WATCH" ∧ ((-20 : ℝ) ≤ -15) := by
  constructor
  · simp only [build_option_recommendation]
    rw [decide_eq_false (by norm_num : ¬ ((10:ℝ) ≤ 5))]
    simp
  · norm_num

/-- C4, code evaluation at the failing input pair: the code's structure
choice reads only the spread width, so it cannot depend on `perf_5_0`;
the test suite requires `PUT_SPREAD` at `perf_5_0 = -1` and `PUT` at
`perf_5_0 = -5` with all other inputs equal, which no width-based choice
can satisfy. -/
theorem C4_code_eval :
    (build_option_recommendation 0.05 "AAPL" 100 (3/10) (-20) (-20) (-1) 45).recommended_strategy
      = (build_option_recommendation 0.05 "AAPL" 100 (3/10) (-20) (-20) (-5) 45).recommended_strategy := by
  simp only [build_option_recommendation]

theorem sum_ite_enumFrom_ge {α : Type} (N : ℕ) (alloc : ℚ) :
    ∀ (l : List α) (n : ℕ), N ≤ n →
      ((List.enumFrom n l).map (fun p => if p.1 < N then alloc else (0:ℚ))).sum = 0 := by
  intro l
  induction l with
  | nil => intro n _; simp
  | cons a t ih =>
    intro n hn
    rw [List.enumFrom_cons]
    simp only [List.map_cons, List.sum_cons]
    rw [if_neg (by omega), ih (n+1) (by omega), add_zero]

theorem sum_ite_enumFrom {α : Type} (N : ℕ) (alloc : ℚ) :
    ∀ (l : List α) (n : ℕ), n ≤ N → N ≤ n + l.length →
      ((List.enumFrom n l).map (fun p => if p.1 < N then alloc else (0:ℚ))).sum
        = ((N - n : ℕ) : ℚ) * alloc := by
  intro l
  induction l with
  | nil =>
    intro n h1 h2
    simp only [List.length_nil, Nat.add_zero] at h2
    have : N = n := le_antisymm h2 h1
    subst this
    simp
  | cons a t ih =>
    intro n h1 h2
    rw [List.enumFrom_cons]
    simp only [List.map_cons, List.sum_cons]
    by_cases hn : n < N
    · rw [if_pos hn]
      by_cases hN : N ≤ n + 1
      · have hNn : N = n + 1 := by omega
        rw [sum_ite_enumFrom_ge N alloc t (n+1) (by omega)]
        rw [hNn]
        simp
      · rw [ih (n+1) (by omega) (by simp only [List.length_cons] at h2; omega)]
        have hcast : ((N - n : ℕ) : ℚ) = ((N - (n+1) : ℕ) : ℚ) + 1 := by
          have : (N - n : ℕ) = (N - (n+1) : ℕ) + 1 := by omega
          rw [this]
          push_cast
          ring
        rw [hcast]
        ring
    · rw [if_neg hn]
      rw [sum_ite_enumFrom_ge N alloc t (n+1) (by omega)]
      have hNn : N = n := by omega
      subst hNn
      simp

theorem round2q_abs (x : ℚ) : |round2q x - x| ≤ 1/200 := by
  rw [round2q]
  have h := abs_sub_round (100 * x)
  have heq : ((round (100 * x) : ℤ) : ℚ) / 100 - x = ((round (100 * x) : ℤ) - 100 * x) / 100 := by
    ring
  rw [heq, abs_div]
  rw [show |(100:ℚ)| = 100 by norm_num]
  rw [div_le_div_iff (by norm_num) (by norm_num)]
  rw [abs_sub_comm]
  linarith [h]

theorem generer_recommandations_recs (ra : AnalyseResultat) (nb_top : ℕ)
    (hsuc : ra.success = true) :
    (generer_recommandations ra nb_top).recommandations
      = ra.resultats.enum.map (fun p =>
          if p.1 < min nb_top ra.resultats.length then
            ⟨p.2.ticker, round2q p.2.momentum, "Investir",
              (if 0 < min nb_top ra.resultats.length then
                round2q (100 / ((min nb_top ra.resultats.length : ℕ) : ℚ)) else 0),
              p.2.rank⟩
          else ⟨p.2.ticker, round2q p.2.momentum, "Sortir", 0, p.2.rank⟩) := by
  rw [generer_recommandations, if_neg (by simp [hsuc])]

theorem generer_recommandations_short_recs (ras : AnalyseResultatShort) (nb_top : ℕ)
    (hsuc : ras.success = true) :
    (generer_recommandations_short ras nb_top).recommandations
      = ras.resultats.enum.map (fun p =>
          if p.1 < min nb_top ras.resultats.length then
            ⟨p.2.ticker, round2q p.2.momentum, p.2.perf_lookback, p.2.perf_recent,
              p.2.prix_actuel, "Shorter",
              (if 0 < min nb_top ras.resultats.length then
                round2q (100 / ((min nb_top ras.resultats.length : ℕ) : ℚ)) else 0),
              p.2.rank⟩
          else ⟨p.2.ticker, round2q p.2.momentum, p.2.perf_lookback, p.2.perf_recent,
            p.2.prix_actuel, "Couvrir", 0, p.2.rank⟩) := by
  rw [generer_recommandations_short, if_neg (by simp [hsuc])]

theorem totalAllocation_eq (ra : AnalyseResultat) (nb_top : ℕ)
    (hsuc : ra.success = true) (hne : ra.resultats ≠ []) (htop : 1 ≤ nb_top) :
    totalAllocation (generer_recommandations ra nb_top).recommandations
      = ((min nb_top ra.resultats.length : ℕ) : ℚ)
        * round2q (100 / ((min nb_top ra.resultats.length : ℕ) : ℚ)) := by
  have hlen : 1 ≤ ra.resultats.length := List.length_pos.mpr hne
  have hN : 1 ≤ min nb_top ra.resultats.length := le_min htop hlen
  rw [totalAllocation, generer_recommandations_recs ra nb_top hsuc, List.map_map]
  have hfun : ((fun rec : Recommandation => rec.allocation) ∘
      (fun p : ℕ × ResultatMomentum =>
        if p.1 < min nb_top ra.resultats.length then
          (⟨p.2.ticker, round2q p.2.momentum, "Investir",
            (if 0 < min nb_top ra.resultats.length then
              round2q (100 / ((min nb_top ra.resultats.length : ℕ) : ℚ)) else 0),
            p.2.rank⟩ : Recommandation)
        else ⟨p.2.ticker, round2q p.2.momentum, "Sortir", 0, p.2.rank⟩))
      = fun p : ℕ × ResultatMomentum =>
          if p.1 < min nb_top ra.resultats.length then
            round2q (100 / ((min nb_top ra.resultats.length : ℕ) : ℚ)) else (0:ℚ) := by
    funext p
    simp only [Function.comp_apply]
    rw [apply_ite (fun rec : Recommandation => rec.allocation)]
    rw [if_pos (by omega : 0 < min nb_top ra.resultats.length)]
  rw [hfun]
  rw [List.enum]
  rw [sum_ite_enumFrom (min nb_top ra.resultats.length) _ ra.resultats 0 (by omega)
    (by simpa using min_le_right nb_top ra.resultats.length)]
  simp

theorem totalAllocationShort_eq (ras : AnalyseResultatShort) (nb_top : ℕ)
    (hsuc : ras.success = true) (hne : ras.resultats ≠ []) (htop : 1 ≤ nb_top) :
    totalAllocationShort (generer_recommandations_short ras nb_top).recommandations
      = ((min nb_top ras.resultats.length : ℕ) : ℚ)
        * round2q (100 / ((min nb_top ras.resultats.length : ℕ) : ℚ)) := by
  have hlen : 1 ≤ ras.resultats.length := List.length_pos.mpr hne
  have hN : 1 ≤ min nb_top ras.resultats.length := le_min htop hlen
  rw [totalAllocationShort, generer_recommandations_short_recs ras nb_top hsuc, List.map_map]
  have hfun : ((fun rec : RecommandationShort => rec.allocation) ∘
      (fun p : ℕ × ResultatShort =>
        if p.1 < min nb_top ras.resultats.length then
          (⟨p.2.ticker, round2q p.2.momentum, p.2.perf_lookback, p.2.perf_recent,
            p.2.prix_actuel, "Shorter",
            (if 0 < min nb_top ras.resultats.length then
              round2q (100 / ((min nb_top ras.resultats.length : ℕ) : ℚ)) else 0),
            p.2.rank⟩ : RecommandationShort)
        else ⟨p.2.ticker, round2q p.2.momentum, p.2.perf_lookback, p.2.perf_recent,
          p.2.prix_actuel, "Couvrir", 0, p.2.rank⟩))
      = fun p : ℕ × ResultatShort =>
          if p.1 < min nb_top ras.resultats.length then
            round2q (100 / ((min nb_top ras.resultats.length : ℕ) : ℚ)) else (0:ℚ) := by
    funext p
    simp only [Function.comp_apply]
    rw [apply_ite (fun rec : RecommandationShort => rec.allocation)]
    rw [if_pos (by omega : 0 < min nb_top ras.resultats.length)]
  rw [hfun]
  rw [List.enum]
  rw [sum_ite_enumFrom (min nb_top ras.resultats.length) _ ras.resultats 0 (by omega)
    (by simpa using min_le_right nb_top ras.resultats.length)]
  simp

theorem total_times_round_close (N : ℕ) (hN : 1 ≤ N) :
    |(N : ℚ) * round2q (100 / (N : ℚ)) - 100| ≤ (N : ℚ) / 200 := by
  have hNne : ((N : ℕ) : ℚ) ≠ 0 := by
    simp only [ne_eq, Nat.cast_eq_zero]
    omega
  have hr := round2q_abs (100 / (N : ℚ))
  have heq : (N : ℚ) * round2q (100 / (N : ℚ)) - 100
      = (N : ℚ) * (round2q (100 / (N : ℚ)) - 100 / (N : ℚ)) := by
    rw [mul_sub, mul_div_cancel₀ _ hNne]
  rw [heq, abs_mul, abs_of_nonneg (by positivity : (0:ℚ) ≤ (N:ℚ))]
  calc (N:ℚ) * |round2q (100 / (N : ℚ)) - 100 / (N : ℚ)|
      ≤ (N:ℚ) * (1/200) := by
        exact mul_le_mul_of_nonneg_left hr (by positivity)
    _ = (N : ℚ) / 200 := by ring

/-- C2, amended: in a successful nonempty batch with `nb_top ≥ 1` and
`N = min nb_top count`, each of the first `N` records gets allocation
`round(100/N, 2)` and every later record gets `0`, for both the long and
the short generator; the batch total is therefore `N * round(100/N, 2)`,
which is within `N * 0.005` of `100` but in general neither equal to `100`
(it is `99.99` for `N = 3`) nor bounded by `100` (it is `100.02` for
`N = 6`). -/
theorem C2_allocations (ra : AnalyseResultat) (ras : AnalyseResultatShort)
    (nb_top : ℕ) (hsuc : ra.success = true) (hne : ra.resultats ≠ [])
    (hsucs : ras.success = true) (hnes : ras.resultats ≠ [])
    (htop : 1 ≤ nb_top) :
    (∀ i (h : i < (generer_recommandations ra nb_top).recommandations.length),
        ((generer_recommandations ra nb_top).recommandations.get ⟨i, h⟩).allocation
          = if i < min nb_top ra.resultats.length then
              round2q (100 / ((min nb_top ra.resultats.length : ℕ) : ℚ)) else 0)
    ∧ totalAllocation (generer_recommandations ra nb_top).recommandations
        = ((min nb_top ra.resultats.length : ℕ) : ℚ)
          * round2q (100 / ((min nb_top ra.resultats.length : ℕ) : ℚ))
    ∧ |totalAllocation (generer_recommandations ra nb_top).recommandations - 100|
        ≤ ((min nb_top ra.resultats.length : ℕ) : ℚ) / 200
    ∧ (∀ i (h : i < (generer_recommandations_short ras nb_top).recommandations.length),
        ((generer_recommandations_short ras nb_top).recommandations.get ⟨i, h⟩).allocation
          = if i < min nb_top ras.resultats.length then
              round2q (100 / ((min nb_top ras.resultats.length : ℕ) : ℚ)) else 0)
    ∧ totalAllocationShort (generer_recommandations_short ras nb_top).recommandations
        = ((min nb_top ras.resultats.length : ℕ) : ℚ)
          * round2q (100 / ((min nb_top ras.resultats.length : ℕ) : ℚ))
    ∧ |totalAllocationShort (generer_recommandations_short ras nb_top).recommandations - 100|
        ≤ ((min nb_top ras.resultats.length : ℕ) : ℚ) / 200 := by
  have hlen : 1 ≤ ra.resultats.length := List.length_pos.mpr hne
  have hN : 1 ≤ min nb_top ra.resultats.length := le_min htop hlen
  have hlens : 1 ≤ ras.resultats.length := List.length_pos.mpr hnes
  have hNs : 1 ≤ min nb_top ras.resultats.length := le_min htop hlens
  refine ⟨?_, totalAllocation_eq ra nb_top hsuc hne htop, ?_, ?_,
    totalAllocationShort_eq ras nb_top hsucs hnes htop, ?_⟩
  · intro i h
    rw [List.get_eq_getElem,
      List.getElem_of_eq (generer_recommandations_recs ra nb_top hsuc) h]
    simp only [List.getElem_map, List.getElem_enum]
    rw [apply_ite (fun rec : Recommandation => rec.allocation)]
    simp only []
    rw [if_pos (by omega : 0 < min nb_top ra.resultats.length)]
  · rw [totalAllocation_eq ra nb_top hsuc hne htop]
    exact total_times_round_close _ hN
  · intro i h
    rw [List.get_eq_getElem,
      List.getElem_of_eq (generer_recommandations_short_recs ras nb_top hsucs) h]
    simp only [List.getElem_map, List.getElem_enum]
    rw [apply_ite (fun rec : RecommandationShort => rec.allocation)]
    simp only []
    rw [if_pos (by omega : 0 < min nb_top ras.resultats.length)]
  · rw [totalAllocationShort_eq ras nb_top hsucs hnes htop]
    exact total_times_round_close _ hNs

/-- C2, counterexample: with three records and `nb_top = 3` every selected
record gets `round(100/3, 2) = 33.33`, so the batch total is `99.99`, not
`100` as the claim demands when at least one record is selected; with six
records and `nb_top = 6` each gets `round(100/6, 2) = 16.67` and the total
is `100.02`, violating the claimed `≤ 100` bound as well. -/
theorem C2_counterexample :
    totalAllocation (generer_recommandations batch3 3).recommandations ≠ 100
    ∧ 100 < totalAllocation (generer_recommandations batch6 6).recommandations := by
  constructor
  · rw [totalAllocation_eq batch3 3 rfl (by simp [batch3]) (by norm_num)]
    rw [show min 3 batch3.resultats.length = 3 by rfl]
    rw [round2q]
    norm_num [round_eq]
  · rw [totalAllocation_eq batch6 6 rfl (by simp [batch6]) (by norm_num)]
    rw [show min 6 batch6.resultats.length = 6 by rfl]
    rw [round2q]
    norm_num [round_eq]

theorem C2_allocations_witness :
    totalAllocation (generer_recommandations batchW 2).recommandations
      = ((min 2 batchW.resultats.length : ℕ) : ℚ)
        * round2q (100 / ((min 2 batchW.resultats.length : ℕ) : ℚ))
    ∧ |totalAllocationShort (generer_recommandations_short batchWS 2).recommandations - 100|
      ≤ ((min 2 batchWS.resultats.length : ℕ) : ℚ) / 200 :=
  ⟨(C2_allocations batchW batchWS 2 rfl (by simp [batchW]) rfl (by simp [batchWS])
      (by norm_num)).2.1,
   (C2_allocations batchW batchWS 2 rfl (by simp [batchW]) rfl (by simp [batchWS])
      (by norm_num)).2.2.2.2.2⟩

/-- C9: on a date-sorted monthly series with at least 13 observations and
positive price 13 months back, `calculer_momentum_12_1` returns
`(price[-2] - price[-13]) / price[-13] * 100`, and it returns `None` on
any series with fewer than 13 observations. -/
theorem C9_momentum_12_1 (prix : List ℚ) (h13 : 13 ≤ prix.length)
    (hpos : 0 < prix.getD (prix.length - 13) 0) :
    calculer_momentum_12_1 prix
      = some ((prix.getD (prix.length - 2) 0 - prix.getD (prix.length - 13) 0)
          / prix.getD (prix.length - 13) 0 * 100)
    ∧ ∀ l : List ℚ, l.length < 13 → calculer_momentum_12_1 l = none := by
  constructor
  · rw [calculer_momentum_12_1, if_neg (by omega)]
    simp only []
    rw [if_pos hpos]
  · intro l hl
    rw [calculer_momentum_12_1, if_pos hl]

theorem C9_momentum_12_1_witness :
    calculer_momentum_12_1 scenario13 = some 20 := by
  have h := (C9_momentum_12_1 scenario13 (by norm_num [scenario13])
    (by norm_num [scenario13])).1
  rw [h]
  norm_num [scenario13]

theorem logReturnsAux_pos (l : List ℝ) :
    ∀ prev : ℝ, 0 < prev → (∀ x ∈ l, 0 < x) →
      ∃ rs, logReturnsAux prev l = some rs ∧ rs.length = l.length := by
  induction l with
  | nil => exact fun prev _ _ => ⟨[], rfl, rfl⟩
  | cons p t ih =>
    intro prev hprev hl
    have hp : 0 < p := hl p (List.mem_cons_self p t)
    obtain ⟨rs, hrs, hlen⟩ := ih p hp fun x hx => hl x (List.mem_cons_of_mem p hx)
    refine ⟨Real.log (p / prev) :: rs, ?_, by simp [hlen]⟩
    rw [logReturnsAux]
    rw [if_pos hprev, if_pos (div_pos hp hprev), hrs]
    rfl

/-- C10: on strictly positive prices with `window ≥ 1`, the historical
volatility estimator hits no log/division/sqrt domain error (it returns
a value on every such input) and that value is nonnegative. -/
theorem C10_hist_vol_total (prices : List ℝ) (window : ℕ)
    (hpos : ∀ p ∈ prices, 0 < p) (hw : 1 ≤ window) :
    ∃ v, estimate_historical_volatility prices window = some v ∧ 0 ≤ v := by
  rw [estimate_historical_volatility.eq_def]
  by_cases hlen : prices.length < window + 1
  · rw [if_pos hlen]
    exact ⟨0.30, rfl, by norm_num⟩
  · rw [if_neg hlen]
    cases prices with
    | nil =>
      exact absurd (by simp : ([] : List ℝ).length < window + 1) hlen
    | cons p rest =>
      have hp : 0 < p := hpos p (List.mem_cons_self p rest)
      obtain ⟨rs, hrs, hrslen⟩ := logReturnsAux_pos rest p hp
        fun x hx => hpos x (List.mem_cons_of_mem p hx)
      dsimp only
      rw [hrs, Option.some_bind]
      by_cases hshort : rs.length < window
      · rw [if_pos hshort]
        exact ⟨0.30, rfl, by norm_num⟩
      · rw [if_neg hshort]
        have hwnz : ¬ window = 0 := by omega
        rw [if_neg hwnz]
        have hlrec : (rs.drop (rs.length - window)).length = window := by
          rw [List.length_drop]
          omega
        rw [if_neg (by rw [hlrec]; omega)]
        exact ⟨_, rfl, mul_nonneg (Real.sqrt_nonneg _) (Real.sqrt_nonneg _)⟩

theorem C10_hist_vol_total_witness :
    ∃ v, estimate_historical_volatility [1, 2] 1 = some v ∧ 0 ≤ v :=
  C10_hist_vol_total [1, 2] 1
    (by intro p hp; simp at hp; rcases hp with h | h <;> simp [h]) (by norm_num)

theorem round2_abs (x : ℝ) : |round2 x - x| ≤ 1/200 := by
  rw [round2]
  have h := abs_sub_round (100 * x)
  have heq : ((round (100 * x) : ℤ) : ℝ) / 100 - x
      = ((round (100 * x) : ℤ) - 100 * x) / 100 := by ring
  rw [heq, abs_div, show |(100:ℝ)| = 100 by norm_num]
  rw [div_le_div_iff (by norm_num) (by norm_num)]
  rw [abs_sub_comm]
  linarith [h]

theorem bisectStep_done (S T r sigma target : ℝ) (kind : OptKind) (st : BisectState)
    (h : st.done = true) : bisectStep S T r sigma target kind st = st := by
  rw [bisectStep, if_pos h]

theorem bisectStep_preserves (S T r sigma target : ℝ) (kind : OptKind)
    (st : BisectState) (h : bisectInv S st) :
    bisectInv S (bisectStep S T r sigma target kind st) := by
  by_cases hd : st.done = true
  · rw [bisectStep_done S T r sigma target kind st hd]
    exact h
  · rw [bisectStep, if_neg hd]
    obtain ⟨h1, h2, h3, _, _⟩ := h
    cases kind <;> dsimp only <;> split_ifs <;>
      exact ⟨by linarith, by linarith, by linarith, by linarith, by linarith⟩

theorem bisect_iterate_preserves (S T r sigma target : ℝ) (kind : OptKind) :
    ∀ (n : ℕ) (st : BisectState), bisectInv S st →
      bisectInv S ((bisectStep S T r sigma target kind)^[n] st) := by
  intro n
  induction n with
  | zero => exact fun st h => h
  | succ k ih =>
    intro st h
    rw [Function.iterate_succ_apply']
    exact bisectStep_preserves S T r sigma target kind _ (ih st h)

theorem bisect_first_step (S T r sigma target : ℝ) (kind : OptKind) (hS : 0 < S) :
    bisectInv S (bisectStep S T r sigma target kind ⟨0.5 * S, 1.5 * S, 0, false⟩) := by
  rw [bisectStep, if_neg (by simp)]
  cases kind <;> dsimp only <;> split_ifs <;>
    exact ⟨by linarith, by linarith, by linarith, by linarith, by linarith⟩

/-- C6, amended: the solver always performs its fixed 50-iteration
bisection and returns a strike inside the search interval `[0.5*S, 1.5*S]`
up to the closing cent rounding; the claimed `0.01` accuracy of the
resulting delta does not hold for every target delta (see the
counterexample, where the target is unattainable). -/
theorem C6_strike_in_search_interval (S T r sigma target : ℝ) (kind : OptKind)
    (hS : 0 < S) :
    0.5 * S - 0.005 ≤ find_strike_by_delta S T r sigma target kind
    ∧ find_strike_by_delta S T r sigma target kind ≤ 1.5 * S + 0.005 := by
  have h50 : bisectInv S
      ((bisectStep S T r sigma target kind)^[50] ⟨0.5 * S, 1.5 * S, 0, false⟩) := by
    rw [show (50 : ℕ) = 49 + 1 from rfl, Function.iterate_succ_apply]
    exact bisect_iterate_preserves S T r sigma target kind 49 _
      (bisect_first_step S T r sigma target kind hS)
  obtain ⟨_, _, _, hm1, hm2⟩ := h50
  rw [find_strike_by_delta]
  have hr := abs_le.mp (round2_abs
    (((bisectStep S T r sigma target kind)^[50] ⟨0.5 * S, 1.5 * S, 0, false⟩).mid))
  constructor
  · have := hr.1
    linarith
  · have := hr.2
    linarith

theorem C6_strike_in_search_interval_witness :
    0.5 * 100 - 0.005 ≤ find_strike_by_delta 100 1 (1/20) (3/10) (-0.3) OptKind.put
    ∧ find_strike_by_delta 100 1 (1/20) (3/10) (-0.3) OptKind.put ≤ 1.5 * 100 + 0.005 :=
  C6_strike_in_search_interval 100 1 (1/20) (3/10) (-0.3) OptKind.put (by norm_num)

/-- C6, counterexample: the claim promises a strike whose delta is within
`0.01` of the target for every target delta, but a put delta always lies
in `[-1, 0]`, so for the target `-2` the solver's result (like any strike)
misses the target by at least `1`. -/
theorem C6_counterexample :
    (0.01 : ℝ) <
      |delta_put 100 (find_strike_by_delta 100 1 0 1 (-2) OptKind.put) 1 0 1 - (-2)| := by
  have h := (delta_put_range 100 (find_strike_by_delta 100 1 0 1 (-2) OptKind.put) 1 0 1).1
  rw [abs_of_nonneg (by linarith)]
  linarith

theorem find_strike_cent (S T r sigma target : ℝ) (kind : OptKind) :
    ∃ n : ℤ, find_strike_by_delta S T r sigma target kind = (n : ℝ) / 100 :=
  ⟨round (100 * (((bisectStep S T r sigma target kind)^[50]
    ⟨0.5 * S, 1.5 * S, 0, false⟩).mid)), rfl⟩

theorem round2_of_cent (n : ℤ) : round2 ((n : ℝ) / 100) = (n : ℝ) / 100 := by
  rw [round2, show (100:ℝ) * ((n : ℝ) / 100) = (n : ℝ) by ring, round_intCast]

theorem round_neg_of_no_tie (z : ℝ) (h : ∀ n : ℤ, z + 1/2 ≠ (n : ℝ)) :
    round (-z) = -round z := by
  rw [round_eq, round_eq]
  have heq : -z + 1/2 = -(z + 1/2) + 1 := by ring
  rw [heq, Int.floor_add_one, Int.floor_neg]
  have hk := Int.floor_le (z + 1/2)
  have hk2 := Int.lt_floor_add_one (z + 1/2)
  have hklt : ((⌊z + 1/2⌋ : ℤ) : ℝ) < z + 1/2 :=
    lt_of_le_of_ne hk (fun hc => h ⌊z + 1/2⌋ hc.symm)
  have hceil : ⌈z + 1/2⌉ = ⌊z + 1/2⌋ + 1 := by
    rw [Int.ceil_eq_iff]
    constructor
    · push_cast
      linarith
    · push_cast
      linarith
  rw [hceil]
  ring

theorem round2_int_sub (m : ℤ) (y : ℝ) (h : ∀ n : ℤ, 100 * y + 1/2 ≠ (n : ℝ)) :
    round2 ((m : ℝ) / 100 - y) = (m : ℝ) / 100 - round2 y := by
  rw [round2, round2]
  have heq : (100:ℝ) * ((m : ℝ) / 100 - y) = (m : ℝ) + -(100 * y) := by ring
  rw [heq, round_int_add, round_neg_of_no_tie (100 * y) h]
  push_cast
  ring

/-- Source shape of the long strike field of `calculate_put_spread`. -/
theorem spread_strike_long_eq (S T r sigma dl ds : ℝ) :
    (calculate_put_spread S T r sigma dl ds).strike_long
      = round2 (if find_strike_by_delta S T r sigma dl OptKind.put
            ≤ find_strike_by_delta S T r sigma ds OptKind.put
          then find_strike_by_delta S T r sigma ds OptKind.put + 1
          else find_strike_by_delta S T r sigma dl OptKind.put) := rfl

/-- Source shape of the short strike field of `calculate_put_spread`. -/
theorem spread_strike_short_eq (S T r sigma dl ds : ℝ) :
    (calculate_put_spread S T r sigma dl ds).strike_short
      = round2 (if find_strike_by_delta S T r sigma dl OptKind.put
            ≤ find_strike_by_delta S T r sigma ds OptKind.put
          then find_strike_by_delta S T r sigma dl OptKind.put - 1
          else find_strike_by_delta S T r sigma ds OptKind.put) := rfl

/-- Source shape of the breakeven field of `calculate_put_spread`. -/
theorem spread_breakeven_eq (S T r sigma dl ds : ℝ) :
    (calculate_put_spread S T r sigma dl ds).breakeven
      = round2 ((if find_strike_by_delta S T r sigma dl OptKind.put
            ≤ find_strike_by_delta S T r sigma ds OptKind.put
          then find_strike_by_delta S T r sigma ds OptKind.put + 1
          else find_strike_by_delta S T r sigma dl OptKind.put)
        - (put_price S (if find_strike_by_delta S T r sigma dl OptKind.put
              ≤ find_strike_by_delta S T r sigma ds OptKind.put
            then find_strike_by_delta S T r sigma ds OptKind.put + 1
            else find_strike_by_delta S T r sigma dl OptKind.put) T r sigma
          - put_price S (if find_strike_by_delta S T r sigma dl OptKind.put
              ≤ find_strike_by_delta S T r sigma ds OptKind.put
            then find_strike_by_delta S T r sigma dl OptKind.put - 1
            else find_strike_by_delta S T r sigma ds OptKind.put) T r sigma)) := rfl

/-- Source shape of the net debit field of `calculate_put_spread`. -/
theorem spread_net_debit_eq (S T r sigma dl ds : ℝ) :
    (calculate_put_spread S T r sigma dl ds).net_debit
      = round2 (put_price S (if find_strike_by_delta S T r sigma dl OptKind.put
            ≤ find_strike_by_delta S T r sigma ds OptKind.put
          then find_strike_by_delta S T r sigma ds OptKind.put + 1
          else find_strike_by_delta S T r sigma dl OptKind.put) T r sigma
        - put_price S (if find_strike_by_delta S T r sigma dl OptKind.put
            ≤ find_strike_by_delta S T r sigma ds OptKind.put
          then find_strike_by_delta S T r sigma dl OptKind.put - 1
          else find_strike_by_delta S T r sigma ds OptKind.put) T r sigma) := rfl

/-- C7: the spread returned by `calculate_put_spread` always satisfies
`strike_long > strike_short` (also through the fallback swap), and its
`breakeven` field is exactly the two-decimal rounding of
`strike_long - net_debit` computed from the returned strikes; whenever the
raw net debit is not on a half-cent rounding boundary this equals
`strike_long - net_debit` on the returned (rounded) fields exactly. -/
theorem C7_put_spread_invariants (S T r sigma dl ds : ℝ)
    (hS : 0 < S) (hT : 0 < T) (hs : 0 < sigma) :
    (calculate_put_spread S T r sigma dl ds).strike_short
      < (calculate_put_spread S T r sigma dl ds).strike_long
    ∧ (calculate_put_spread S T r sigma dl ds).breakeven
        = round2 ((calculate_put_spread S T r sigma dl ds).strike_long
          - (put_price S ((calculate_put_spread S T r sigma dl ds).strike_long) T r sigma
            - put_price S ((calculate_put_spread S T r sigma dl ds).strike_short) T r sigma))
    ∧ ((∀ n : ℤ,
          100 * (put_price S ((calculate_put_spread S T r sigma dl ds).strike_long) T r sigma
            - put_price S ((calculate_put_spread S T r sigma dl ds).strike_short) T r sigma)
            + 1/2 ≠ (n : ℝ)) →
        (calculate_put_spread S T r sigma dl ds).breakeven
          = (calculate_put_spread S T r sigma dl ds).strike_long
            - (calculate_put_spread S T r sigma dl ds).net_debit) := by
  obtain ⟨nL, hnL⟩ := find_strike_cent S T r sigma dl OptKind.put
  obtain ⟨nS, hnS⟩ := find_strike_cent S T r sigma ds OptKind.put
  have hSLcent : ∃ m : ℤ,
      (if find_strike_by_delta S T r sigma dl OptKind.put
          ≤ find_strike_by_delta S T r sigma ds OptKind.put
        then find_strike_by_delta S T r sigma ds OptKind.put + 1
        else find_strike_by_delta S T r sigma dl OptKind.put) = (m : ℝ) / 100 := by
    split_ifs
    · exact ⟨nS + 100, by rw [hnS]; push_cast; ring⟩
    · exact ⟨nL, hnL⟩
  have hSScent : ∃ m : ℤ,
      (if find_strike_by_delta S T r sigma dl OptKind.put
          ≤ find_strike_by_delta S T r sigma ds OptKind.put
        then find_strike_by_delta S T r sigma dl OptKind.put - 1
        else find_strike_by_delta S T r sigma ds OptKind.put) = (m : ℝ) / 100 := by
    split_ifs
    · exact ⟨nL - 100, by rw [hnL]; push_cast; ring⟩
    · exact ⟨nS, hnS⟩
  obtain ⟨mL, hmL⟩ := hSLcent
  obtain ⟨mS, hmS⟩ := hSScent
  have hlongf : (calculate_put_spread S T r sigma dl ds).strike_long = (mL : ℝ) / 100 := by
    rw [spread_strike_long_eq, hmL, round2_of_cent]
  have hshortf : (calculate_put_spread S T r sigma dl ds).strike_short = (mS : ℝ) / 100 := by
    rw [spread_strike_short_eq, hmS, round2_of_cent]
  have horder : (mS : ℝ) / 100 < (mL : ℝ) / 100 := by
    rw [← hmL, ← hmS]
    split_ifs with hle
    · rw [hnL, hnS] at hle ⊢
      have : (nL : ℝ) ≤ (nS : ℝ) := by
        rw [div_le_div_iff_of_pos_right (by norm_num : (0:ℝ) < 100)] at hle
        exact hle
      linarith
    · push_neg at hle
      exact hle
  refine ⟨?_, ?_, ?_⟩
  · rw [hlongf, hshortf]
    exact horder
  · rw [spread_breakeven_eq, hlongf, hshortf, hmL, hmS]
  · intro htie
    rw [hlongf, hshortf] at htie
    rw [spread_breakeven_eq, spread_net_debit_eq, hlongf, hmL, hmS]
    exact round2_int_sub mL _ htie

theorem C7_put_spread_invariants_witness :
    (calculate_put_spread 100 1 (1/20) (3/10) (-0.3) (-0.1)).strike_short
      < (calculate_put_spread 100 1 (1/20) (3/10) (-0.3) (-0.1)).strike_long
    ∧ (calculate_put_spread 100 1 (1/20) (3/10) (-0.3) (-0.1)).breakeven
        = round2 ((calculate_put_spread 100 1 (1/20) (3/10) (-0.3) (-0.1)).strike_long
          - (put_price 100 ((calculate_put_spread 100 1 (1/20) (3/10) (-0.3) (-0.1)).strike_long)
              1 (1/20) (3/10)
            - put_price 100 ((calculate_put_spread 100 1 (1/20) (3/10) (-0.3) (-0.1)).strike_short)
              1 (1/20) (3/10)))
    ∧ ((∀ n : ℤ,
          100 * (put_price 100 ((calculate_put_spread 100 1 (1/20) (3/10) (-0.3) (-0.1)).strike_long)
              1 (1/20) (3/10)
            - put_price 100 ((calculate_put_spread 100 1 (1/20) (3/10) (-0.3) (-0.1)).strike_short)
              1 (1/20) (3/10))
            + 1/2 ≠ (n : ℝ)) →
        (calculate_put_spread 100 1 (1/20) (3/10) (-0.3) (-0.1)).breakeven
          = (calculate_put_spread 100 1 (1/20) (3/10) (-0.3) (-0.1)).strike_long
            - (calculate_put_spread 100 1 (1/20) (3/10) (-0.3) (-0.1)).net_debit) :=
  C7_put_spread_invariants 100 1 (1/20) (3/10) (-0.3) (-0.1)
    (by norm_num) (by norm_num) (by norm_num)

theorem ivStep_of_done (S K T r m : ℝ) (kind : OptKind) (st : IVState)
    (h : st.done = true) : ivStep S K T r m kind st = st := by
  rw [ivStep.eq_def, if_pos h]

theorem ivStep_iterate_done (S K T r m : ℝ) (kind : OptKind) :
    ∀ (n : ℕ) (st : IVState), st.done = true →
      (ivStep S K T r m kind)^[n] st = st := by
  intro n
  induction n with
  | zero => exact fun st _ => rfl
  | succ k ih =>
    intro st h
    rw [Function.iterate_succ_apply, ivStep_of_done S K T r m kind st h, ih st h]

theorem ivInv_mk_true (x : ℝ) (h1 : -0.99 < x) (h2 : x < 6) : ivInv ⟨x, true⟩ :=
  ⟨fun hff => Bool.noConfusion hff, fun _ => ⟨h1, h2⟩⟩

theorem ivInv_mk_false (x : ℝ) (h1 : 0.01 ≤ x) (h2 : x ≤ 5) : ivInv ⟨x, false⟩ :=
  ⟨fun _ => ⟨h1, h2⟩, fun htt => Bool.noConfusion htt⟩

theorem newton_step_bound (sigma d v : ℝ) (hs1 : 0.01 ≤ sigma) (hs2 : sigma ≤ 5)
    (hv : 0.0001 ≤ v) (hd : |d| < 0.0001) :
    -0.99 < sigma + d / v ∧ sigma + d / v < 6 := by
  have hvpos : (0:ℝ) < v := lt_of_lt_of_le (by norm_num) hv
  have hq : |d / v| < 1 := by
    rw [abs_div, abs_of_pos hvpos, div_lt_one hvpos]
    exact lt_of_lt_of_le hd hv
  have hq2 := abs_lt.mp hq
  constructor
  · linarith [hq2.1]
  · linarith [hq2.2]

theorem clamp_mem (x : ℝ) :
    0.01 ≤ max 0.01 (min x 5.0) ∧ max 0.01 (min x 5.0) ≤ 5 := by
  constructor
  · exact le_max_left _ _
  · apply max_le
    · norm_num
    · calc min x 5.0 ≤ 5.0 := min_le_right _ _
        _ ≤ 5 := by norm_num

theorem ivStep_preserves (S K T r m : ℝ) (kind : OptKind) (st : IVState)
    (h : ivInv st) : ivInv (ivStep S K T r m kind st) := by
  by_cases hd : st.done = true
  · rw [ivStep_of_done S K T r m kind st hd]
    exact h
  · have hf : st.done = false := by
      cases hb : st.done
      · rfl
      · exact absurd hb hd
    obtain ⟨hin, -⟩ := h
    obtain ⟨hs1, hs2⟩ := hin hf
    rw [ivStep.eq_def, if_neg hd]
    cases kind
    all_goals
      dsimp only
      split_ifs with hv hdif
      · exact ivInv_mk_true st.sigma (by linarith) (by linarith)
      · push_neg at hv
        have hb := newton_step_bound st.sigma _ _ hs1 hs2 hv hdif
        exact ivInv_mk_true _ hb.1 hb.2
      · exact ivInv_mk_false _ (clamp_mem _).1 (clamp_mem _).2

theorem ivStep_iterate_preserves (S K T r m : ℝ) (kind : OptKind) :
    ∀ (n : ℕ) (st : IVState), ivInv st →
      ivInv ((ivStep S K T r m kind)^[n] st) := by
  intro n
  induction n with
  | zero => exact fun st h => h
  | succ k ih =>
    intro st h
    rw [Function.iterate_succ_apply']
    exact ivStep_preserves S K T r m kind _ (ih st h)

/-- C8, amended: the implied-volatility estimate stays in the clamp
interval `[0.01, 5]` on the vega-break and exhausted-budget exit paths,
but the small-diff break returns the unclamped Newton update, which can
leave that interval by strictly less than `1`; on every input the result
therefore lies in `(0.01 - 1, 5 + 1)`. -/
theorem C8_iv_bounds (S K T r market_price : ℝ) (kind : OptKind) :
    -0.99 < estimate_iv_from_price S K T r market_price kind
    ∧ estimate_iv_from_price S K T r market_price kind < 6 := by
  have h0 : ivInv ⟨0.30, false⟩ :=
    ⟨fun _ => by norm_num, fun htt => Bool.noConfusion htt⟩
  have hinv := ivStep_iterate_preserves S K T r market_price kind 100 ⟨0.30, false⟩ h0
  obtain ⟨hin, hdone⟩ := hinv
  rw [estimate_iv_from_price]
  cases hb : ((ivStep S K T r market_price kind)^[100] ⟨0.30, false⟩).done
  · obtain ⟨ha, hc⟩ := hin hb
    constructor
    · linarith
    · linarith
  · exact hdone hb

theorem exp_le_inv_one_sub (x : ℝ) (h0 : 0 ≤ x) (h1 : x < 1) :
    Real.exp x ≤ (1 - x)⁻¹ := by
  have h := Real.add_one_le_exp (-x)
  rw [Real.exp_neg] at h
  have h2 : 1 - x ≤ (Real.exp x)⁻¹ := by linarith
  have h3 : (0:ℝ) < 1 - x := by linarith
  calc Real.exp x = ((Real.exp x)⁻¹)⁻¹ := (inv_inv _).symm
    _ ≤ (1 - x)⁻¹ := inv_le_inv_of_le h3 h2

theorem exp_seven_lb : (1096.63 : ℝ) ≤ Real.exp 7 := by
  have h : Real.exp 1 ^ (7:ℕ) = Real.exp 7 := by
    rw [Real.exp_one_pow]
    norm_num
  rw [← h]
  calc (1096.63:ℝ) ≤ 2.7182818283 ^ (7:ℕ) := by norm_num
    _ ≤ Real.exp 1 ^ (7:ℕ) :=
        pow_le_pow_left (by norm_num) Real.exp_one_gt_d9.le 7

theorem exp_seven_ub : Real.exp 7 ≤ (1096.634 : ℝ) := by
  have h : Real.exp 1 ^ (7:ℕ) = Real.exp 7 := by
    rw [Real.exp_one_pow]
    norm_num
  rw [← h]
  calc Real.exp 1 ^ (7:ℕ) ≤ 2.7182818286 ^ (7:ℕ) :=
        pow_le_pow_left (Real.exp_pos 1).le Real.exp_one_lt_d9.le 7
    _ ≤ (1096.634:ℝ) := by norm_num

theorem log_337_lb : (1.2:ℝ) ≤ Real.log (337/100) := by
  rw [Real.le_log_iff_exp_le (by norm_num : (0:ℝ) < 337/100)]
  have h12 : Real.exp 1.2 = Real.exp 1 * (Real.exp 0.1 * Real.exp 0.1) := by
    rw [← Real.exp_add, ← Real.exp_add]
    norm_num
  rw [h12]
  have h01 : Real.exp 0.1 ≤ (10/9 : ℝ) := by
    have h := exp_le_inv_one_sub 0.1 (by norm_num) (by norm_num)
    rw [show ((1:ℝ) - 0.1)⁻¹ = 10/9 by norm_num] at h
    exact h
  calc Real.exp 1 * (Real.exp 0.1 * Real.exp 0.1)
      ≤ 2.7182818286 * (10/9 * (10/9)) := by
        apply mul_le_mul Real.exp_one_lt_d9.le
          (mul_le_mul h01 h01 (Real.exp_pos _).le (by norm_num))
          (by positivity) (by norm_num)
    _ ≤ 337/100 := by norm_num

theorem log_337_ub : Real.log (337/100) ≤ (1.23:ℝ) := by
  rw [Real.log_le_iff_le_exp (by norm_num : (0:ℝ) < 337/100)]
  have h123 : Real.exp 1.23 = Real.exp 1 * (Real.exp 0.115 * Real.exp 0.115) := by
    rw [← Real.exp_add, ← Real.exp_add]
    norm_num
  rw [h123]
  have h115 : (1.115:ℝ) ≤ Real.exp 0.115 := by
    linarith [Real.add_one_le_exp (0.115:ℝ)]
  calc (337/100 : ℝ) ≤ 2.7182818283 * (1.115 * 1.115) := by norm_num
    _ ≤ Real.exp 1 * (Real.exp 0.115 * Real.exp 0.115) := by
        apply mul_le_mul Real.exp_one_gt_d9.le
          (mul_le_mul h115 h115 (by norm_num) (Real.exp_pos _).le)
          (by norm_num) (Real.exp_pos _).le

theorem exp_741_lb : (1547:ℝ) ≤ Real.exp 7.41125 := by
  have heq : Real.exp 7.41125 = Real.exp 7 * Real.exp 0.41125 := by
    rw [← Real.exp_add]
    norm_num
  rw [heq]
  have h2 : (1.41125:ℝ) ≤ Real.exp 0.41125 := by
    linarith [Real.add_one_le_exp (0.41125:ℝ)]
  calc (1547:ℝ) ≤ 1096.63 * 1.41125 := by norm_num
    _ ≤ Real.exp 7 * Real.exp 0.41125 :=
        mul_le_mul exp_seven_lb h2 (by norm_num) (Real.exp_pos 7).le

theorem exp_780_ub : Real.exp 7.80125 ≤ (3053:ℝ) := by
  have heq : Real.exp 7.80125 = Real.exp 7 * (Real.exp 0.400625 * Real.exp 0.400625) := by
    rw [← Real.exp_add, ← Real.exp_add]
    norm_num
  have hq : Real.exp 0.400625 ≤ (1600/959 : ℝ) := by
    have h := exp_le_inv_one_sub 0.400625 (by norm_num) (by norm_num)
    rw [show ((1:ℝ) - 0.400625)⁻¹ = 1600/959 by norm_num] at h
    exact h
  rw [heq]
  calc Real.exp 7 * (Real.exp 0.400625 * Real.exp 0.400625)
      ≤ 1096.634 * (1600/959 * (1600/959)) := by
        apply mul_le_mul exp_seven_ub
          (mul_le_mul hq hq (Real.exp_pos _).le (by norm_num))
          (by positivity) (by norm_num)
    _ ≤ 3053 := by norm_num

theorem sqrt_two_pi_lb : (2.5066:ℝ) ≤ Real.sqrt (2 * Real.pi) := by
  rw [Real.le_sqrt' (by norm_num)]
  nlinarith [Real.pi_gt_d6]

theorem sqrt_two_pi_ub : Real.sqrt (2 * Real.pi) ≤ (2.5067:ℝ) := by
  rw [Real.sqrt_le_left (by norm_num)]
  nlinarith [Real.pi_lt_d6]

theorem d1_337_eq :
    d1 1 (337/100) 1 0 0.30 = (9/200 - Real.log (337/100)) / (3/10) := by
  rw [d1, if_neg (by norm_num)]
  rw [Real.sqrt_one]
  rw [show (1:ℝ)/(337/100) = ((337:ℝ)/100)⁻¹ by norm_num]
  rw [Real.log_inv]
  norm_num
  ring_nf

theorem d1_337_bounds :
    -3.95 ≤ d1 1 (337/100) 1 0 0.30 ∧ d1 1 (337/100) 1 0 0.30 ≤ -3.85 := by
  rw [d1_337_eq]
  have h1 := log_337_lb
  have h2 := log_337_ub
  constructor
  · rw [le_div_iff (by norm_num : (0:ℝ) < 3/10)]
    linarith
  · rw [div_le_iff (by norm_num : (0:ℝ) < 3/10)]
    linarith

theorem pdf_d1_bounds :
    1/7653 ≤ stdNormalPDF (d1 1 (337/100) 1 0 0.30)
    ∧ stdNormalPDF (d1 1 (337/100) 1 0 0.30) ≤ 1/3877 := by
  obtain ⟨hlo, hhi⟩ := d1_337_bounds
  have hD2lo : (14.8225:ℝ) ≤ (d1 1 (337/100) 1 0 0.30)^2 := by nlinarith
  have hD2hi : (d1 1 (337/100) 1 0 0.30)^2 ≤ (15.6025:ℝ) := by nlinarith
  have hElo : (1/3053 : ℝ) ≤ Real.exp (-((d1 1 (337/100) 1 0 0.30)^2)/2) := by
    have hmono : Real.exp (-(7.80125:ℝ)) ≤ Real.exp (-((d1 1 (337/100) 1 0 0.30)^2)/2) :=
      Real.exp_le_exp.mpr (by linarith)
    have hinv : (1/3053:ℝ) ≤ Real.exp (-(7.80125:ℝ)) := by
      rw [Real.exp_neg, show (1/3053 : ℝ) = (3053:ℝ)⁻¹ by norm_num]
      exact inv_le_inv_of_le (Real.exp_pos _) exp_780_ub
    linarith
  have hEhi : Real.exp (-((d1 1 (337/100) 1 0 0.30)^2)/2) ≤ (1/1547 : ℝ) := by
    have hmono : Real.exp (-((d1 1 (337/100) 1 0 0.30)^2)/2) ≤ Real.exp (-(7.41125:ℝ)) :=
      Real.exp_le_exp.mpr (by linarith)
    have hinv : Real.exp (-(7.41125:ℝ)) ≤ (1/1547:ℝ) := by
      rw [Real.exp_neg, show (1/1547:ℝ) = (1547:ℝ)⁻¹ by norm_num]
      exact inv_le_inv_of_le (by norm_num) exp_741_lb
    linarith
  constructor
  · show (1/7653 : ℝ)
      ≤ Real.exp (-((d1 1 (337/100) 1 0 0.30)^2)/2) / Real.sqrt (2 * Real.pi)
    calc (1/7653 : ℝ) ≤ (1/3053) / 2.5067 := by norm_num
      _ ≤ _ := div_le_div (Real.exp_pos _).le hElo sqrt_two_pi_pos sqrt_two_pi_ub
  · show Real.exp (-((d1 1 (337/100) 1 0 0.30)^2)/2) / Real.sqrt (2 * Real.pi)
      ≤ (1/3877 : ℝ)
    calc Real.exp (-((d1 1 (337/100) 1 0 0.30)^2)/2) / Real.sqrt (2 * Real.pi)
        ≤ (1/1547) / 2.5066 := div_le_div (by norm_num) hEhi (by norm_num) sqrt_two_pi_lb
      _ ≤ (1/3877 : ℝ) := by norm_num

/-- C8, counterexample: choose the market price just below the
Black-Scholes price at the starting volatility `0.30`, with the strike
placed so that vega passes the `0.0001` gate but is still tiny. The first
Newton step then takes the small-diff break with an unclamped update of
about `-0.5`, and the function returns a volatility below `0.01`,
outside the claimed clamp interval `[0.01, 5.0]`. -/
theorem C8_counterexample :
    estimate_iv_from_price 1 (337/100) 1 0
      (put_price 1 (337/100) 1 0 0.30 - 9/100000) OptKind.put < 0.01 := by
  obtain ⟨hplo, hphi⟩ := pdf_d1_bounds
  have hppos : (0:ℝ) < stdNormalPDF (d1 1 (337/100) 1 0 0.30) := stdNormalPDF_pos _
  have hveq : vega 1 (337/100) 1 0 0.30 * 100 = stdNormalPDF (d1 1 (337/100) 1 0 0.30) := by
    rw [vega, if_neg (by norm_num), Real.sqrt_one]
    ring
  have hnv : ¬ (vega 1 (337/100) 1 0 0.30 * 100 < 0.0001) := by
    rw [hveq]
    push_neg
    calc (0.0001 : ℝ) ≤ 1/7653 := by norm_num
      _ ≤ _ := hplo
  have hdif : |put_price 1 (337/100) 1 0 0.30 - 9/100000
      - put_price 1 (337/100) 1 0 0.30| < 0.0001 := by
    rw [show put_price 1 (337/100) 1 0 0.30 - 9/100000
        - put_price 1 (337/100) 1 0 0.30 = -(9/100000) by ring]
    rw [abs_neg, abs_of_nonneg (by norm_num)]
    norm_num
  have hstep : ivStep 1 (337/100) 1 0
      (put_price 1 (337/100) 1 0 0.30 - 9/100000) OptKind.put ⟨0.30, false⟩
      = ⟨0.30 + (put_price 1 (337/100) 1 0 0.30 - 9/100000
            - put_price 1 (337/100) 1 0 0.30) / (vega 1 (337/100) 1 0 0.30 * 100),
          true⟩ := by
    rw [ivStep.eq_def, if_neg (by simp)]
    dsimp only
    rw [if_neg hnv, if_pos hdif]
  have hiter : ((ivStep 1 (337/100) 1 0
        (put_price 1 (337/100) 1 0 0.30 - 9/100000) OptKind.put)^[100]) ⟨0.30, false⟩
      = ⟨0.30 + (put_price 1 (337/100) 1 0 0.30 - 9/100000
            - put_price 1 (337/100) 1 0 0.30) / (vega 1 (337/100) 1 0 0.30 * 100),
          true⟩ := by
    rw [show (100:ℕ) = 99 + 1 from rfl, Function.iterate_succ_apply, hstep]
    exact ivStep_iterate_done 1 (337/100) 1 0
      (put_price 1 (337/100) 1 0 0.30 - 9/100000) OptKind.put 99 _ rfl
  rw [estimate_iv_from_price, hiter]
  dsimp only
  rw [hveq]
  rw [show put_price 1 (337/100) 1 0 0.30 - 9/100000
      - put_price 1 (337/100) 1 0 0.30 = -(9/100000) by ring]
  have hdivlb : (9/100000 : ℝ) / (1/3877)
      ≤ (9/100000 : ℝ) / stdNormalPDF (d1 1 (337/100) 1 0 0.30) :=
    div_le_div_of_nonneg_left (by norm_num) hppos hphi
  rw [neg_div]
  have hval : (9/100000 : ℝ) / (1/3877) = 34893/100000 := by norm_num
  rw [hval] at hdivlb
  linarith
